import Mathlib

/-!
Verification of the process-lifecycle core of the MinecraftpanelHost control
panel (src/server.js).  The session manager is embedded as a discrete-event
state machine: the three global mutable variables (`scriptProcess`,
`activeServerDir`, `onStopCallback`), the set of spawned child processes,
the pending `setTimeout` timers, and the stream of broadcast events are all
explicit fields of a `World` record, and every socket request, child-process
close event and timer firing is a `step` of the machine, translated line by
line from `startScriptProcess`, `stopServerProcess`, the `restart-script`
and `terminal-command` handlers, and the single `close` listener.
The one-shot command runner (`runCommand`) and the path validator
(`isValidPath`) are embedded separately below.
-/

namespace Panel

/-- Signals that `scriptProcess.kill(sig)` can deliver. -/
inductive Signal
  | sigterm
  | sigkill
deriving DecidableEq, Repr

/-- A spawned child process: its pid, the server directory it was launched
for, the byte strings written to its standard input (each entry is one
`stdin.write` call, verbatim), the signals delivered to it, whether its
`close` event has been observed, and whether the OS-level spawn failed
(Node's `spawn` returns the handle synchronously either way; the failure
surfaces later as an asynchronous `error` event). -/
structure Proc where
  pid : Nat
  dir : String
  stdin : List String
  signals : List Signal
  closed : Bool
  spawnFailed : Bool
deriving DecidableEq, Repr

/-- The kinds of `setTimeout` timers the code creates: the SIGTERM
escalation timer, the SIGKILL escalation timer (both from
`stopServerProcess`), and the deferred `startScriptProcess` call scheduled
by the restart callback. -/
inductive TimerKind
  | term
  | kill
  | restartStart (dir : String)
deriving DecidableEq, Repr

/-- A pending `setTimeout` timer.  `clearTimeout` is modelled by setting
`active := false`; a fired one-shot timer is also deactivated. -/
structure Timer where
  tid : Nat
  fireAt : Nat
  kind : TimerKind
  active : Bool
deriving DecidableEq, Repr

/-- Broadcast events emitted via `io.emit` (plus the cleanup sweep the
close handler runs with `exec`). -/
inductive Emit
  | terminalOutput (msg : String)
  | scriptStarted (dir : String)
  | scriptStopped
  | cleanupSweep
deriving DecidableEq, Repr

/-- The only callback value ever stored in `onStopCallback`: the restart
continuation `() => setTimeout(() => startScriptProcess(dir), 1000)`. -/
inductive Callback
  | restartCb (dir : String)
deriving DecidableEq, Repr

/-- The global state of the panel process: the three mutable variables of
server.js, the spawned child processes, the pending timers, the broadcast
log, which server directories hold a start.sh, which directories the OS
would fail to spawn in (interpreter missing, descriptor exhaustion, ...),
and fresh-id counters. -/
structure World where
  scriptProcess : Option Nat
  activeServerDir : Option String
  onStopCallback : Option Callback
  procs : List Proc
  timers : List Timer
  emitted : List Emit
  scripts : List String
  failingSpawns : List String
  nextPid : Nat
  nextTid : Nat
deriving DecidableEq, Repr

/-- Apply `f` to the process with the given pid. -/
def updateProc (ps : List Proc) (pid : Nat) (f : Proc → Proc) : List Proc :=
  ps.map (fun p => if p.pid = pid then f p else p)

/-- `proc.stdin.write(line)`. -/
def writeStdin (ps : List Proc) (pid : Nat) (line : String) : List Proc :=
  updateProc ps pid (fun p => { p with stdin := p.stdin ++ [line] })

/-- `proc.kill(sig)`. -/
def sendSignal (ps : List Proc) (pid : Nat) (s : Signal) : List Proc :=
  updateProc ps pid (fun p => { p with signals := p.signals ++ [s] })

/-- Record that the process's `close` event has been observed. -/
def markClosed (ps : List Proc) (pid : Nat) : List Proc :=
  updateProc ps pid (fun p => { p with closed := true })

/-- The `once(close)` listener registered by `stopServerProcess` clears
both escalation timers (`clearTimeout(termTimeout); clearTimeout(killTimeout)`). -/
def cancelStopTimers (ts : List Timer) : List Timer :=
  ts.map (fun t =>
    match t.kind with
    | .term => { t with active := false }
    | .kill => { t with active := false }
    | .restartStart _ => t)

/-- A one-shot timer is spent once it fires. -/
def deactivateTimer (ts : List Timer) (tid : Nat) : List Timer :=
  ts.map (fun t => if t.tid = tid then { t with active := false } else t)

def alreadyRunningMsg : String := "A server is already running.\n"

def startShNotFoundMsg (dir : String) : String :=
  "ERROR: start.sh not found for server " ++ dir ++ ".\n"

def gracefulShutdownMsg : String :=
  "\n--- Attempting graceful shutdown with stop command... ---\n"

def sigtermMsg : String :=
  "\n--- Graceful shutdown timed out. Sending SIGTERM... ---\n"

def sigkillMsg : String :=
  "\n--- SIGTERM timed out. Sending SIGKILL... ---\n"

def exitMsg (code : Int) : String :=
  "\n--- Server process exited with code: " ++ toString code ++ " ---\n"

/-- Invoking the restart callback runs
`setTimeout(() => startScriptProcess(dir), 1000)`: it schedules a deferred
start 1000 ms from now and touches nothing else. -/
def invokeCallback (w : World) (t : Nat) : Callback → World
  | .restartCb dir =>
    { w with
        timers := w.timers ++ [⟨w.nextTid, t + 1000, .restartStart dir, true⟩],
        nextTid := w.nextTid + 1 }

/-- `startScriptProcess(serverDir)` (server.js lines 251-277): reject if a
process handle exists; reject if start.sh is missing; otherwise assign the
active directory, call `spawn`, and broadcast `script-started`.  `spawn`
returns the handle synchronously whether or not the OS-level spawn will
fail, so `activeServerDir` and `scriptProcess` are assigned
unconditionally (lines 256-257); a failing spawn is recorded on the new
process and surfaces only later as its `error` event. -/
def startScriptProcess (w : World) (dir : String) : World :=
  match w.scriptProcess with
  | some _ => { w with emitted := w.emitted ++ [.terminalOutput alreadyRunningMsg] }
  | none =>
    if w.scripts.contains dir then
      { w with
          activeServerDir := some dir,
          scriptProcess := some w.nextPid,
          procs := w.procs
            ++ [⟨w.nextPid, dir, [], [], false, w.failingSpawns.contains dir⟩],
          nextPid := w.nextPid + 1,
          emitted := w.emitted ++ [.scriptStarted dir] }
    else
      { w with emitted := w.emitted ++ [.terminalOutput (startShNotFoundMsg dir)] }

/-- `stopServerProcess(cb)` (server.js lines 214-249): if no process is
active, invoke the callback immediately and return; otherwise store the
callback (only when one is supplied), broadcast the graceful-shutdown
notice, write "stop\n" to the child's stdin, and arm the two escalation
timers at +10000 ms (SIGTERM) and +18000 ms (SIGKILL). -/
def stopServerProcess (w : World) (t : Nat) (cb : Option Callback) : World :=
  match w.scriptProcess with
  | none =>
    match cb with
    | some c => invokeCallback w t c
    | none => w
  | some pid =>
    let w1 : World :=
      match cb with
      | some c => { w with onStopCallback := some c }
      | none => w
    let w2 : World :=
      { w1 with
          emitted := w1.emitted ++ [.terminalOutput gracefulShutdownMsg],
          procs := writeStdin w1.procs pid "stop\n" }
    { w2 with
        timers := w2.timers ++
          [⟨w2.nextTid, t + 10000, .term, true⟩, ⟨w2.nextTid + 1, t + 18000, .kill, true⟩],
        nextTid := w2.nextTid + 2 }

/-- The single `close` handler (server.js lines 263-276) together with the
`once(close)` timer-clearing listener from `stopServerProcess`: broadcast
`script-stopped` and the exit code, run the cleanup sweep
(`exec(killall ... pkill ... playit ...)`), clear `activeServerDir` and
`scriptProcess`, and invoke `onStopCallback` once before clearing it. -/
def handleClose (w : World) (t : Nat) (pid : Nat) (code : Int) : World :=
  let w1 : World :=
    { w with
        procs := markClosed w.procs pid,
        timers := cancelStopTimers w.timers,
        emitted := w.emitted ++ [.scriptStopped, .terminalOutput (exitMsg code), .cleanupSweep],
        activeServerDir := none,
        scriptProcess := none }
  match w1.onStopCallback with
  | some c => { invokeCallback w1 t c with onStopCallback := none }
  | none => w1

/-- Run the body of a fired timer.  The escalation bodies re-check the
global `scriptProcess` (`if (scriptProcess) scriptProcess.kill(...)`), so a
firing after the handle was cleared is a no-op. -/
def fireTimerBody (w : World) : TimerKind → World
  | .term =>
    match w.scriptProcess with
    | some pid =>
      { w with
          emitted := w.emitted ++ [.terminalOutput sigtermMsg],
          procs := sendSignal w.procs pid .sigterm }
    | none => w
  | .kill =>
    match w.scriptProcess with
    | some pid =>
      { w with
          emitted := w.emitted ++ [.terminalOutput sigkillMsg],
          procs := sendSignal w.procs pid .sigkill }
    | none => w
  | .restartStart dir => startScriptProcess w dir

/-- A timer event: a cancelled (or already spent) timer firing is a no-op;
an active one is spent and its body runs. -/
def handleTimerFire (w : World) (tid : Nat) : World :=
  match w.timers.find? (fun tm => tm.tid == tid && tm.active) with
  | some tm => fireTimerBody { w with timers := deactivateTimer w.timers tid } tm.kind
  | none => w

/-- The socket requests the lifecycle core consumes. -/
inductive Request
  | startReq (dir : String)
  | stopReq
  | restartReq
  | inputReq (text : String)
deriving DecidableEq, Repr

/-- The socket handlers (server.js lines 279-288): `start-script`,
`stop-script` (no callback), `restart-script` (no-op unless an active
directory exists; otherwise captures it and stops with the restart
callback), and `terminal-command` (writes `cmd + "\n"` only when a process
handle exists; otherwise nothing happens). -/
def handleRequest (w : World) (t : Nat) : Request → World
  | .startReq dir => startScriptProcess w dir
  | .stopReq => stopServerProcess w t none
  | .restartReq =>
    match w.activeServerDir with
    | none => w
    | some dir => stopServerProcess w t (some (.restartCb dir))
  | .inputReq text =>
    match w.scriptProcess with
    | some pid => { w with procs := writeStdin w.procs pid (text ++ "\n") }
    | none => w

/-- Every discrete event the single-threaded core reacts to.  `procError`
is the asynchronous `error` event of a process whose OS-level spawn
failed. -/
inductive Event
  | req (r : Request)
  | close (pid : Nat) (code : Int)
  | timerFire (tid : Nat)
  | procError (pid : Nat)
deriving DecidableEq, Repr

/-- One step of the event loop at time `t`.  startScriptProcess attaches
listeners only for stdout/stderr data and for `close`; no `error` listener
is ever registered on `scriptProcess`, so observing a spawn failure runs
no session code: the process handle, the active-instance marker and
everything else stay exactly as the spawn left them — there is no
rollback. -/
def step (w : World) (t : Nat) : Event → World
  | .req r => handleRequest w t r
  | .close pid code => handleClose w t pid code
  | .timerFire tid => handleTimerFire w tid
  | .procError _ => w

/-- Run a timestamped event trace. -/
def runTrace (w : World) : List (Nat × Event) → World
  | [] => w
  | (t, e) :: rest => runTrace (step w t e) rest

/-- The child processes whose `close` event has not been observed. -/
def liveProcs (w : World) : List Proc :=
  w.procs.filter (fun p => !p.closed)

/-- How many child processes are currently alive. -/
def liveCount (w : World) : Nat :=
  (liveProcs w).length

/-- The session invariant: when the process handle is null every spawned
process has exited, and when it holds a pid exactly one process is alive
and it is that one. -/
def invB (w : World) : Bool :=
  match w.scriptProcess with
  | none => w.procs.all (fun p => p.closed)
  | some pid => (liveProcs w).map (fun p => p.pid) == [pid]

/-- An event is well formed when a `close` is only delivered for a process
that was spawned and has not already closed (Node emits `close` exactly
once per child), and an `error` only for a process whose spawn failed. -/
def wfEvent (w : World) : Event → Bool
  | .close pid _ => w.procs.any (fun p => p.pid == pid && !p.closed)
  | .procError pid => w.procs.any (fun p => p.pid == pid && p.spawnFailed)
  | _ => true

/-- A trace is well formed when each event is well formed in the world it
is delivered to. -/
def wfTrace (w : World) : List (Nat × Event) → Bool
  | [] => true
  | (t, e) :: rest => wfEvent w e && wfTrace (step w t e) rest

/-! ## Command runner (server.js lines 58-70)

`runCommand` spawns a one-shot external command and settles its promise on
the terminal event: exit code 0 resolves, any other exit code rejects with
a message carrying the code and the literal command line, and a spawn-level
error rejects with the underlying error message.  The terminal event the OS
delivers is the `RunOutcome`; the promise settlement is the `Except`. -/

/-- The terminal event of a one-shot spawned command: either the `close`
event with an exit code, or a spawn-level `error` event. -/
inductive RunOutcome
  | exited (code : Int)
  | spawnError (msg : String)
deriving DecidableEq, Repr

/-- How `runCommand` settles its promise on the terminal event. -/
def runCommandResult (command : String) (args : List String) :
    RunOutcome → Except String Unit
  | .exited code =>
    if code = 0 then .ok ()
    else .error ("Command failed with code " ++ toString code ++ ": "
      ++ command ++ " " ++ String.intercalate " " args)
  | .spawnError msg => .error msg

/-! ## Path validation (server.js lines 147-151, 291-296)

`isValidPath` resolves the server directory and the requested path with
`path.resolve` and accepts when the requested path's string form starts
with the server directory's string form.  Paths are modelled as segment
lists; `path.resolve` is `resolveSegs` (a `..` segment pops, `.` and empty
segments are skipped); the string form is the character list
`/seg0/seg1/...`; the JavaScript `String.prototype.startsWith` is
`List.isPrefixOf` on characters. -/

/-- `path.resolve(renderChars acc, segs...)` on an absolute base `acc`. -/
def resolveSegs (acc : List String) : List String → List String
  | [] => acc
  | s :: rest =>
    if s = ".." then resolveSegs acc.dropLast rest
    else if s = "." ∨ s = "" then resolveSegs acc rest
    else resolveSegs (acc ++ [s]) rest

/-- The absolute-path string `/seg0/seg1/...` as a character list. -/
def renderChars (segs : List String) : List Char :=
  segs.foldl (fun a s => a ++ '/' :: s.data) []

/-- `isValidPath(serverName, ...paths)`: the string-prefix containment
check the file-management handlers gate on. -/
def isValidPath (base : List String) (serverName : String)
    (paths : List String) : Bool :=
  let serverPath := resolveSegs base [serverName]
  let requestedPath := resolveSegs serverPath paths
  (renderChars serverPath).isPrefixOf (renderChars requestedPath)

/-- Modelled from the spec: the requested path resolves to a location
inside the named server instance's directory exactly when the resolved
server directory is a directory-prefix (segment prefix) of the resolved
requested path.  This is the containment property the claim asserts
`isValidPath` enforces; it is compared against the code's string-prefix
check. -/
def insideDir (base : List String) (serverName : String)
    (paths : List String) : Bool :=
  let serverPath := resolveSegs base [serverName]
  let requestedPath := resolveSegs serverPath paths
  serverPath.isPrefixOf requestedPath

/-- A file-management operation requested of a handler. -/
inductive FileOp
  | read
  | write
  | rename
  | delete
  | list
deriving DecidableEq, Repr

/-- What a file-management handler did: the filesystem operation it
performed (if any) and whether it emitted a `server-action-error`. -/
structure HandlerResult where
  performed : Option FileOp
  errorEmitted : Bool
deriving DecidableEq, Repr

/-- Every file-management handler (list-files, get-file-content,
save-file-content, upload-file, rename-file, delete-file) first checks
`isValidPath` and throws (emitting `server-action-error`, touching no
file) when it fails; otherwise it performs its filesystem operation. -/
def fileHandler (base : List String) (serverName : String)
    (paths : List String) (op : FileOp) : HandlerResult :=
  if isValidPath base serverName paths then ⟨some op, false⟩
  else ⟨none, true⟩

/-! ## Concrete scenario worlds used by the witnesses -/

/-- A freshly booted panel with one installed instance directory `A`. -/
def demoWorld : World := ⟨none, none, none, [], [], [], ["A"], [], 0, 0⟩

/-- start, a rejected second start, a stop, and the process exit. -/
def demoTrace : List (Nat × Event) :=
  [(0, .req (.startReq "A")), (1, .req (.startReq "A")),
   (2, .req .stopReq), (3, .close 0 0)]

/-- The panel while instance `A` is running as pid 0. -/
def runningDemoWorld : World :=
  ⟨some 0, some "A", none, [⟨0, "A", [], [], false, false⟩], [], [], ["A"],
   [], 1, 0⟩

/-- The pid-0 process of `runningDemoWorld`. -/
def demoProc : Proc := ⟨0, "A", [], [], false, false⟩

/-- A running panel with the restart callback already pending. -/
def stoppingDemoWorld : World :=
  ⟨some 0, some "A", some (.restartCb "A"), [⟨0, "A", [], [], false, false⟩],
   [], [], ["A"], [], 1, 0⟩

/-- An idle panel where instance `A` has its start.sh but the OS-level
spawn fails (e.g. the shell interpreter cannot be executed). -/
def brokenSpawnWorld : World :=
  ⟨none, none, none, [], [], [], ["A"], ["A"], 0, 0⟩

/-! ## Invariant lemmas for the session state machine -/

lemma updateProc_live_pids (ps : List Proc) (pid : Nat) (f : Proc → Proc)
    (hp : ∀ p, (f p).pid = p.pid) (hc : ∀ p, (f p).closed = p.closed) :
    ((updateProc ps pid f).filter (fun p => !p.closed)).map (fun p => p.pid)
      = (ps.filter (fun p => !p.closed)).map (fun p => p.pid) := by
  induction ps with
  | nil => rfl
  | cons q qs ih =>
    simp only [updateProc, List.map_cons] at *
    by_cases hq : q.pid = pid
    · simp only [if_pos hq, List.filter_cons, hc q, hp q]
      cases h : q.closed <;> simp [h, ih, hp q]
    · simp only [if_neg hq, List.filter_cons]
      cases h : q.closed <;> simp [h, ih]

lemma updateProc_all_closed (ps : List Proc) (pid : Nat) (f : Proc → Proc)
    (hc : ∀ p, (f p).closed = p.closed) :
    ((updateProc ps pid f).all (fun p => p.closed))
      = (ps.all (fun p => p.closed)) := by
  induction ps with
  | nil => rfl
  | cons q qs ih =>
    simp only [updateProc, List.map_cons, List.all_cons] at *
    by_cases hq : q.pid = pid
    · simp [if_pos hq, hc q, ih]
    · simp [if_neg hq, ih]

lemma writeStdin_live_pids (ps : List Proc) (pid : Nat) (s : String) :
    ((writeStdin ps pid s).filter (fun p => !p.closed)).map (fun p => p.pid)
      = (ps.filter (fun p => !p.closed)).map (fun p => p.pid) :=
  updateProc_live_pids ps pid _ (fun _ => rfl) (fun _ => rfl)

lemma sendSignal_live_pids (ps : List Proc) (pid : Nat) (s : Signal) :
    ((sendSignal ps pid s).filter (fun p => !p.closed)).map (fun p => p.pid)
      = (ps.filter (fun p => !p.closed)).map (fun p => p.pid) :=
  updateProc_live_pids ps pid _ (fun _ => rfl) (fun _ => rfl)

lemma writeStdin_all_closed (ps : List Proc) (pid : Nat) (s : String) :
    ((writeStdin ps pid s).all (fun p => p.closed))
      = (ps.all (fun p => p.closed)) :=
  updateProc_all_closed ps pid _ (fun _ => rfl)

/-- If exactly one process is alive and it has pid `pid`, every live
process in the list has pid `pid`. -/
lemma live_singleton_pid (ps : List Proc) (pid : Nat)
    (h : (ps.filter (fun p => !p.closed)).map (fun p => p.pid) = [pid]) :
    ∀ p ∈ ps, p.closed = false → p.pid = pid := by
  intro p hmem hcl
  have hf : p ∈ ps.filter (fun p => !p.closed) := by
    simp [List.mem_filter, hmem, hcl]
  have hm : p.pid ∈ (ps.filter (fun p => !p.closed)).map (fun p => p.pid) :=
    List.mem_map_of_mem _ hf
  rw [h] at hm
  simpa using hm

/-- Marking the unique live process closed closes everything. -/
lemma markClosed_all (ps : List Proc) (pid : Nat)
    (h : ∀ p ∈ ps, p.closed = false → p.pid = pid) :
    ((markClosed ps pid).all (fun p => p.closed)) = true := by
  induction ps with
  | nil => rfl
  | cons q qs ih =>
    simp only [markClosed, updateProc, List.map_cons, List.all_cons,
      Bool.and_eq_true]
    constructor
    · by_cases hq : q.pid = pid
      · simp [if_pos hq]
      · simp only [if_neg hq]
        cases hcl : q.closed with
        | true => rfl
        | false => exact absurd (h q (by simp) hcl) hq
    · have := ih (fun p hm hc => h p (by simp [hm]) hc)
      simpa [markClosed, updateProc] using this

lemma all_closed_filter_nil (ps : List Proc)
    (h : ps.all (fun p => p.closed) = true) :
    ps.filter (fun p => !p.closed) = [] := by
  induction ps with
  | nil => rfl
  | cons q qs ih =>
    simp only [List.all_cons, Bool.and_eq_true] at h
    simp [List.filter_cons, h.1, ih h.2]

/-- `invB` only reads the process handle and the process list, so any step
that changes neither preserves it. -/
lemma invB_true_of (w' w : World)
    (hs : w'.scriptProcess = w.scriptProcess) (hp : w'.procs = w.procs)
    (h : invB w = true) : invB w' = true := by
  unfold invB liveProcs at *
  rw [hs, hp]
  exact h

lemma invokeCallback_scriptProcess (w : World) (t : Nat) (c : Callback) :
    (invokeCallback w t c).scriptProcess = w.scriptProcess := by
  cases c
  rfl

lemma invokeCallback_procs (w : World) (t : Nat) (c : Callback) :
    (invokeCallback w t c).procs = w.procs := by
  cases c
  rfl

lemma invokeCallback_activeServerDir (w : World) (t : Nat) (c : Callback) :
    (invokeCallback w t c).activeServerDir = w.activeServerDir := by
  cases c
  rfl

lemma invokeCallback_onStopCallback (w : World) (t : Nat) (c : Callback) :
    (invokeCallback w t c).onStopCallback = w.onStopCallback := by
  cases c
  rfl

lemma invokeCallback_emitted (w : World) (t : Nat) (c : Callback) :
    (invokeCallback w t c).emitted = w.emitted := by
  cases c
  rfl

lemma invokeCallback_invB (w : World) (t : Nat) (c : Callback)
    (h : invB w = true) : invB (invokeCallback w t c) = true :=
  invB_true_of _ w (invokeCallback_scriptProcess w t c)
    (invokeCallback_procs w t c) h

lemma invB_all_of_none (w : World) (hs : w.scriptProcess = none)
    (h : invB w = true) : w.procs.all (fun p => p.closed) = true := by
  unfold invB at h
  rw [hs] at h
  exact h

lemma invB_live_of_some (w : World) (pid : Nat)
    (hs : w.scriptProcess = some pid) (h : invB w = true) :
    (w.procs.filter (fun p => !p.closed)).map (fun p => p.pid) = [pid] := by
  unfold invB liveProcs at h
  rw [hs] at h
  exact beq_iff_eq.mp h

lemma startScriptProcess_invB (w : World) (dir : String)
    (h : invB w = true) : invB (startScriptProcess w dir) = true := by
  cases hs : w.scriptProcess with
  | some pid =>
    simp only [startScriptProcess, hs]
    exact invB_true_of _ w (by simp [hs]) rfl h
  | none =>
    simp only [startScriptProcess, hs]
    by_cases hc : w.scripts.contains dir
    · simp only [if_pos hc]
      have hall := invB_all_of_none w hs h
      have hnil := all_closed_filter_nil w.procs hall
      simp [invB, liveProcs, List.filter_append, hnil]
    · simp only [if_neg hc]
      exact invB_true_of _ w (by simp [hs]) rfl h

lemma stopServerProcess_invB (w : World) (t : Nat) (cb : Option Callback)
    (h : invB w = true) : invB (stopServerProcess w t cb) = true := by
  cases hs : w.scriptProcess with
  | none =>
    simp only [stopServerProcess, hs]
    cases cb with
    | some c => exact invokeCallback_invB w t c h
    | none => exact h
  | some pid =>
    have hlive := invB_live_of_some w pid hs h
    cases cb with
    | some c =>
      simp only [stopServerProcess, hs]
      simp [invB, liveProcs, writeStdin_live_pids, hlive]
    | none =>
      simp only [stopServerProcess, hs]
      simp [invB, liveProcs, writeStdin_live_pids, hlive]

lemma handleClose_invB (w : World) (t : Nat) (pid : Nat) (code : Int)
    (h : invB w = true) (hwf : wfEvent w (.close pid code) = true) :
    invB (handleClose w t pid code) = true := by
  obtain ⟨p, hmem, hppid, hpcl⟩ :
      ∃ p ∈ w.procs, p.pid = pid ∧ p.closed = false := by
    simpa [wfEvent, List.any_eq_true] using hwf
  cases hs : w.scriptProcess with
  | none =>
    exfalso
    have hall := invB_all_of_none w hs h
    have := List.all_eq_true.mp hall p hmem
    rw [hpcl] at this
    exact Bool.false_ne_true this
  | some q =>
    have hlive := invB_live_of_some w q hs h
    have hq : pid = q := by
      have hpq := live_singleton_pid w.procs q hlive p hmem hpcl
      rw [hppid] at hpq
      exact hpq
    have hall : ((markClosed w.procs pid).all (fun r => r.closed)) = true := by
      refine markClosed_all w.procs pid (fun r hm hc => ?_)
      rw [hq]
      exact live_singleton_pid w.procs q hlive r hm hc
    unfold handleClose
    cases hcb : w.onStopCallback with
    | some c =>
      cases c with
      | restartCb d =>
        simp [hcb, invokeCallback, invB, hall]
    | none =>
      simp [hcb, invB, hall]

/-- Every well-formed event preserves the session invariant. -/
lemma step_invB (w : World) (t : Nat) (e : Event)
    (h : invB w = true) (hwf : wfEvent w e = true) :
    invB (step w t e) = true := by
  cases e with
  | req r =>
    cases r with
    | startReq dir => exact startScriptProcess_invB w dir h
    | stopReq => exact stopServerProcess_invB w t none h
    | restartReq =>
      simp only [step, handleRequest]
      cases hd : w.activeServerDir with
      | none => exact h
      | some dir => exact stopServerProcess_invB w t _ h
    | inputReq text =>
      simp only [step, handleRequest]
      cases hs : w.scriptProcess with
      | none => exact h
      | some pid =>
        have hlive := invB_live_of_some w pid hs h
        simp [invB, liveProcs, writeStdin_live_pids, hlive, hs]
  | close pid code => exact handleClose_invB w t pid code h hwf
  | procError pid => exact h
  | timerFire tid =>
    simp only [step, handleTimerFire]
    cases hf : w.timers.find? (fun tm => tm.tid == tid && tm.active) with
    | none => exact h
    | some tm =>
      have hmid : invB { w with timers := deactivateTimer w.timers tid }
          = true := invB_true_of _ w rfl rfl h
      cases htk : tm.kind with
      | term =>
        simp only [fireTimerBody, htk]
        cases hs : w.scriptProcess with
        | none => simpa [hs] using hmid
        | some pid =>
          have hlive := invB_live_of_some w pid hs h
          simp [hs, invB, liveProcs, sendSignal_live_pids, hlive]
      | kill =>
        simp only [fireTimerBody, htk]
        cases hs : w.scriptProcess with
        | none => simpa [hs] using hmid
        | some pid =>
          have hlive := invB_live_of_some w pid hs h
          simp [hs, invB, liveProcs, sendSignal_live_pids, hlive]
      | restartStart dir =>
        simp only [fireTimerBody, htk]
        exact startScriptProcess_invB _ dir hmid

/-- The invariant is preserved along every well-formed trace. -/
lemma runTrace_invB (tr : List (Nat × Event)) :
    ∀ w : World, invB w = true → wfTrace w tr = true →
      invB (runTrace w tr) = true := by
  induction tr with
  | nil => intro w h _; exact h
  | cons te rest ih =>
    intro w h hwf
    obtain ⟨t, e⟩ := te
    simp only [wfTrace, Bool.and_eq_true] at hwf
    exact ih (step w t e) (step_invB w t e h hwf.1) hwf.2

/-- Under the invariant at most one child process is alive. -/
lemma invB_liveCount (w : World) (h : invB w = true) : liveCount w ≤ 1 := by
  unfold liveCount
  cases hs : w.scriptProcess with
  | none =>
    have hall := invB_all_of_none w hs h
    have hnil := all_closed_filter_nil w.procs hall
    simp [liveProcs, hnil]
  | some pid =>
    have hlive := invB_live_of_some w pid hs h
    have : (liveProcs w).length = 1 := by
      have hlen := congrArg List.length hlive
      simpa [liveProcs] using hlen
    omega

/-! ## Helper lemmas for the exit handler and the path validator -/

lemma cancelStopTimers_inactive (ts : List Timer) :
    ∀ tm ∈ cancelStopTimers ts,
      (tm.kind = .term ∨ tm.kind = .kill) → tm.active = false := by
  induction ts with
  | nil => intro tm h; simp [cancelStopTimers] at h
  | cons q qs ih =>
    intro tm hmem hkind
    simp only [cancelStopTimers, List.map_cons, List.mem_cons] at hmem
    cases hmem with
    | inl he =>
      cases hk : q.kind with
      | term => rw [he]; simp [hk]
      | kill => rw [he]; simp [hk]
      | restartStart d =>
        exfalso
        rw [he] at hkind
        simp [hk] at hkind
    | inr hm => exact ih tm (by simpa [cancelStopTimers] using hm) hkind

/-- After `markClosed ps pid` no process with that pid is still alive, so
a second `close` event for the same pid is never well formed. -/
lemma markClosed_any_false (ps : List Proc) (pid : Nat) :
    ((markClosed ps pid).any (fun p => p.pid == pid && !p.closed)) = false := by
  induction ps with
  | nil => rfl
  | cons q qs ih =>
    simp only [markClosed, updateProc, List.map_cons, List.any_cons,
      Bool.or_eq_false_iff]
    refine ⟨?_, by simpa [markClosed, updateProc] using ih⟩
    by_cases hq : q.pid = pid
    · simp [if_pos hq]
    · simp [if_neg hq, hq]

lemma foldl_slash_acc (l : List String) (acc : List Char) :
    l.foldl (fun a s => a ++ '/' :: s.data) acc
      = acc ++ l.foldl (fun a s => a ++ '/' :: s.data) [] := by
  induction l generalizing acc with
  | nil => simp
  | cons s rest ih =>
    simp only [List.foldl_cons, List.nil_append]
    rw [ih (acc ++ '/' :: s.data), ih ('/' :: s.data)]
    simp [List.append_assoc]

lemma renderChars_append (a b : List String) :
    renderChars (a ++ b)
      = renderChars a ++ b.foldl (fun x s => x ++ '/' :: s.data) [] := by
  unfold renderChars
  rw [List.foldl_append, foldl_slash_acc]

/-- A directory-prefix of the resolved path renders to a string prefix, so
the string check never rejects a genuinely contained path. -/
lemma renderChars_prefix (sp rest : List String) :
    (renderChars sp).isPrefixOf (renderChars (sp ++ rest)) = true := by
  rw [List.isPrefixOf_iff_prefix, renderChars_append]
  exact List.prefix_append _ _

/-! ## Claim theorems -/

/-- C1: Single-active-process invariant: along every well-formed sequence
of events (start/stop/restart/send-input requests, process exits, timer
firings) at most one child process is alive at any instant, and a start
request arriving while a process handle exists only broadcasts the
already-running warning: it spawns no process and leaves the existing
process and every other piece of session state untouched. -/
theorem single_active_process (w : World) (tr : List (Nat × Event))
    (hinv : invB w = true) (hwf : wfTrace w tr = true) :
    liveCount (runTrace w tr) ≤ 1
    ∧ (∀ pid dir t, w.scriptProcess = some pid →
        step w t (.req (.startReq dir))
          = { w with emitted := w.emitted ++ [.terminalOutput alreadyRunningMsg] }) := by
  constructor
  · exact invB_liveCount _ (runTrace_invB tr w hinv hwf)
  · intro pid dir t hp
    simp [step, handleRequest, startScriptProcess, hp]

theorem single_active_process_witness :
    (invB demoWorld = true ∧ wfTrace demoWorld demoTrace = true)
    ∧ liveCount (runTrace demoWorld demoTrace) ≤ 1 :=
  ⟨⟨by decide, by decide⟩,
    (single_active_process demoWorld demoTrace (by decide) (by decide)).1⟩

/-- C6 as stated is false on the code: a send-command request arriving
while Idle is completely silent.  The `terminal-command` handler
(server.js line 288) has no else branch, so the world — including the
broadcast log — is unchanged and no user-visible notice is emitted. -/
theorem sendInput_idle_counterexample :
    step demoWorld 0 (.req (.inputReq "list")) = demoWorld
    ∧ (step demoWorld 0 (.req (.inputReq "list"))).emitted = [] := by
  constructor
  · rfl
  · rfl

/-- C6 (amended): when a process is Running, send-command writes the text
verbatim followed by exactly one newline to the child's standard input;
when Idle the request is a silent no-op — no state change and no notice
emitted. -/
theorem sendInput_semantics (w : World) (t : Nat) (txt : String) :
    (∀ pid, w.scriptProcess = some pid →
        step w t (.req (.inputReq txt))
          = { w with procs := writeStdin w.procs pid (txt ++ "\n") }
        ∧ ∀ p, w.procs = [p] → p.pid = pid →
            (step w t (.req (.inputReq txt))).procs
              = [{ p with stdin := p.stdin ++ [txt ++ "\n"] }])
    ∧ (w.scriptProcess = none → step w t (.req (.inputReq txt)) = w) := by
  constructor
  · intro pid hp
    constructor
    · simp [step, handleRequest, hp]
    · intro p hpr hppid
      simp [step, handleRequest, hp, hpr, writeStdin, updateProc, hppid]
  · intro hp
    simp [step, handleRequest, hp]

theorem sendInput_semantics_witness :
    runningDemoWorld.scriptProcess = some 0
    ∧ (step runningDemoWorld 7 (.req (.inputReq "say hi"))).procs
        = [{ demoProc with stdin := demoProc.stdin ++ ["say hi\n"] }] :=
  ⟨rfl, ((sendInput_semantics runningDemoWorld 7 "say hi").1 0 rfl).2
    demoProc rfl rfl⟩

/-- C7: a stop request while Idle invokes the supplied callback (if any)
immediately and returns: no events are emitted and the process handle, the
active-instance marker and the pending-callback slot are all unchanged
(the callback's own effect is only to schedule its deferred-start timer). -/
theorem stop_while_idle (w : World) (t : Nat) (hs : w.scriptProcess = none) :
    stopServerProcess w t none = w
    ∧ ∀ d,
        stopServerProcess w t (some (.restartCb d))
          = invokeCallback w t (.restartCb d)
        ∧ (stopServerProcess w t (some (.restartCb d))).scriptProcess
            = w.scriptProcess
        ∧ (stopServerProcess w t (some (.restartCb d))).activeServerDir
            = w.activeServerDir
        ∧ (stopServerProcess w t (some (.restartCb d))).onStopCallback
            = w.onStopCallback
        ∧ (stopServerProcess w t (some (.restartCb d))).procs = w.procs
        ∧ (stopServerProcess w t (some (.restartCb d))).emitted = w.emitted := by
  refine ⟨by simp [stopServerProcess, hs], fun d => ?_⟩
  refine ⟨by simp [stopServerProcess, hs], ?_, ?_, ?_, ?_, ?_⟩ <;>
    simp [stopServerProcess, hs, invokeCallback]

theorem stop_while_idle_witness :
    demoWorld.scriptProcess = none
    ∧ stopServerProcess demoWorld 3 none = demoWorld :=
  ⟨rfl, (stop_while_idle demoWorld 3 rfl).1⟩

/-- C8 as stated is false on the code: with start.sh present but the
OS-level spawn failing, the start request still assigns the process handle
and the active-instance marker — server.js lines 256-257 run before the
failure can surface — and the failed process's error event, for which no
listener is registered, rolls nothing back, so the session is not left
Idle: the handle is non-null and the marker set, unlike a request that was
never made. -/
theorem spawn_failure_counterexample :
    (step brokenSpawnWorld 0 (.req (.startReq "A"))).procs
      = [⟨0, "A", [], [], false, true⟩]
    ∧ (step brokenSpawnWorld 0 (.req (.startReq "A"))).scriptProcess = some 0
    ∧ (step brokenSpawnWorld 0 (.req (.startReq "A"))).activeServerDir
        = some "A"
    ∧ wfEvent (step brokenSpawnWorld 0 (.req (.startReq "A"))) (.procError 0)
        = true
    ∧ step (step brokenSpawnWorld 0 (.req (.startReq "A"))) 1 (.procError 0)
        = step brokenSpawnWorld 0 (.req (.startReq "A")) := by
  refine ⟨?_, ?_, ?_, ?_, ?_⟩ <;> rfl

/-- C8 (amended): a start request whose start.sh does not exist on disk is
rejected with an error notification and leaves the session Idle — the
process handle stays null, the active-instance marker stays untouched and
no process is spawned.  When start.sh exists, however, the handle and the
marker are assigned unconditionally at spawn time, before any OS-level
spawn failure can be observed, and the failed process's error event has no
listener: observing it changes no state, so such a failure does not return
the session to Idle. -/
theorem start_failure_semantics (w : World) (t : Nat) (dir : String)
    (hs : w.scriptProcess = none) :
    (w.scripts.contains dir = false →
      step w t (.req (.startReq dir))
        = { w with emitted := w.emitted ++ [.terminalOutput (startShNotFoundMsg dir)] }
      ∧ (step w t (.req (.startReq dir))).scriptProcess = none
      ∧ (step w t (.req (.startReq dir))).activeServerDir = w.activeServerDir
      ∧ (step w t (.req (.startReq dir))).procs = w.procs)
    ∧ (w.scripts.contains dir = true →
      (step w t (.req (.startReq dir))).scriptProcess = some w.nextPid
      ∧ (step w t (.req (.startReq dir))).activeServerDir = some dir
      ∧ (step w t (.req (.startReq dir))).procs
          = w.procs
            ++ [⟨w.nextPid, dir, [], [], false, w.failingSpawns.contains dir⟩])
    ∧ (∀ (w2 : World) (t2 pid : Nat), step w2 t2 (.procError pid) = w2) := by
  refine ⟨fun hmiss => ?_, fun hhit => ?_, fun w2 t2 pid => rfl⟩
  · have hm : dir ∉ w.scripts := by simpa using hmiss
    refine ⟨?_, ?_, ?_, ?_⟩ <;>
      simp [step, handleRequest, startScriptProcess, hs, hm]
  · have hm : dir ∈ w.scripts := by simpa using hhit
    refine ⟨?_, ?_, ?_⟩ <;>
      simp [step, handleRequest, startScriptProcess, hs, hm]

theorem start_failure_semantics_witness :
    demoWorld.scriptProcess = none
    ∧ demoWorld.scripts.contains "B" = false
    ∧ (step demoWorld 0 (.req (.startReq "B"))).procs = demoWorld.procs :=
  ⟨rfl, by decide,
    ((start_failure_semantics demoWorld 0 "B" rfl).1 (by decide)).2.2.2⟩

/-- C9: the command runner resolves on exit code 0; any non-zero exit code
rejects with a message carrying the code and the literal command line; a
spawn-level error rejects with the underlying error message.  The result
is a function of the single terminal outcome — nothing is retried. -/
theorem runCommand_result_semantics (command : String) (args : List String) :
    runCommandResult command args (.exited 0) = .ok ()
    ∧ (∀ code : Int, code ≠ 0 →
        runCommandResult command args (.exited code)
          = .error ("Command failed with code " ++ toString code ++ ": "
              ++ command ++ " " ++ String.intercalate " " args))
    ∧ (∀ msg, runCommandResult command args (.spawnError msg) = .error msg) := by
  refine ⟨rfl, fun code hc => ?_, fun msg => rfl⟩
  simp [runCommandResult, hc]

theorem runCommand_result_semantics_witness :
    (7 : Int) ≠ 0
    ∧ runCommandResult "curl" ["-fL", "u"] (.exited 7)
        = .error "Command failed with code 7: curl -fL u" :=
  ⟨by decide, (runCommand_result_semantics "curl" ["-fL", "u"]).2.1 7 (by decide)⟩

/-- C10 as stated is false on the code: the relative path
`../ATM10backup` requested against instance `ATM10` resolves to the
sibling directory `ATM10backup`, outside the instance's directory, yet
`isValidPath`'s string-prefix check accepts it and the handler performs
the filesystem operation with no error. -/
theorem path_containment_counterexample :
    insideDir ["root", "workspace"] "ATM10" ["..", "ATM10backup"] = false
    ∧ fileHandler ["root", "workspace"] "ATM10" ["..", "ATM10backup"] .read
        = ⟨some .read, false⟩ := by
  constructor
  · decide
  · decide

/-- C10 (amended): every file-management operation is rejected with an
error notification and performs no filesystem operation exactly when the
string-prefix check on the resolved paths fails; every path that resolves
inside the instance directory passes the check (no false rejections), but
the check also accepts paths resolving to a sibling entry whose name
textually extends the instance name. -/
theorem path_validation_semantics (base : List String) (serverName : String)
    (paths : List String) (op : FileOp) :
    (isValidPath base serverName paths = false →
      fileHandler base serverName paths op = ⟨none, true⟩)
    ∧ (isValidPath base serverName paths = true →
      fileHandler base serverName paths op = ⟨some op, false⟩)
    ∧ (insideDir base serverName paths = true →
      isValidPath base serverName paths = true) := by
  refine ⟨fun h => by simp [fileHandler, h], fun h => by simp [fileHandler, h],
    fun h => ?_⟩
  simp only [insideDir] at h
  simp only [isValidPath]
  obtain ⟨rest, hrest⟩ := List.isPrefixOf_iff_prefix.mp h
  rw [← hrest]
  exact renderChars_prefix _ _

theorem path_validation_semantics_witness :
    isValidPath ["root", "workspace"] "ATM10" ["..", "other"] = false
    ∧ fileHandler ["root", "workspace"] "ATM10" ["..", "other"] .delete
        = ⟨none, true⟩ :=
  ⟨by decide,
    (path_validation_semantics ["root", "workspace"] "ATM10"
      ["..", "other"] .delete).1 (by decide)⟩

/-- C2: whenever the child process's exit is observed — the explicit-stop
path and the spontaneous-exit path both dispatch to this one close handler
— the session cancels every pending escalation timer, clears the process
handle and the active-instance marker (Idle), runs the cleanup sweep,
broadcasts the terminal events once, and invokes the pending stop/restart
callback exactly once before clearing it: the callback's deferred-start
timer is scheduled exactly once when a callback was pending and never
otherwise, and the same process's close can never be observed a second
time on a well-formed trace. -/
theorem exit_handler_terminal_transition (w : World) (t pid : Nat) (code : Int)
    (hs : w.scriptProcess = some pid) :
    (step w t (.close pid code)).scriptProcess = none
    ∧ (step w t (.close pid code)).activeServerDir = none
    ∧ (step w t (.close pid code)).emitted
        = w.emitted ++ [.scriptStopped, .terminalOutput (exitMsg code), .cleanupSweep]
    ∧ (∀ tm ∈ (step w t (.close pid code)).timers,
        (tm.kind = .term ∨ tm.kind = .kill) → tm.active = false)
    ∧ (step w t (.close pid code)).onStopCallback = none
    ∧ (∀ d, w.onStopCallback = some (.restartCb d) →
        (step w t (.close pid code)).timers
          = cancelStopTimers w.timers
            ++ [⟨w.nextTid, t + 1000, .restartStart d, true⟩])
    ∧ (w.onStopCallback = none →
        (step w t (.close pid code)).timers = cancelStopTimers w.timers)
    ∧ (∀ code2, wfEvent (step w t (.close pid code)) (.close pid code2) = false) := by
  cases hcb : w.onStopCallback with
  | none =>
    refine ⟨by simp [step, handleClose, hcb], by simp [step, handleClose, hcb],
      by simp [step, handleClose, hcb], ?_, by simp [step, handleClose, hcb],
      ?_, by simp [step, handleClose, hcb], ?_⟩
    · intro tm hm hk
      simp only [step, handleClose, hcb] at hm
      exact cancelStopTimers_inactive w.timers tm hm hk
    · intro d hd
      exact Option.noConfusion hd
    · intro code2
      simp only [step, handleClose, hcb, wfEvent]
      exact markClosed_any_false w.procs pid
  | some c =>
    cases c with
    | restartCb d0 =>
      refine ⟨by simp [step, handleClose, hcb, invokeCallback],
        by simp [step, handleClose, hcb, invokeCallback],
        by simp [step, handleClose, hcb, invokeCallback], ?_,
        by simp [step, handleClose, hcb, invokeCallback], ?_, ?_, ?_⟩
      · intro tm hm hk
        simp only [step, handleClose, hcb, invokeCallback] at hm
        rcases List.mem_append.mp hm with hl | hr
        · exact cancelStopTimers_inactive w.timers tm hl hk
        · exfalso
          have htm : tm = ⟨w.nextTid, t + 1000, .restartStart d0, true⟩ := by
            simpa using hr
          rw [htm] at hk
          rcases hk with h1 | h1 <;> exact TimerKind.noConfusion h1
      · intro d hd
        have hdd : d0 = d := Callback.restartCb.inj (Option.some.inj hd)
        rw [← hdd]
        simp [step, handleClose, hcb, invokeCallback]
      · intro hnone
        exact Option.noConfusion hnone
      · intro code2
        simp only [step, handleClose, hcb, invokeCallback, wfEvent]
        exact markClosed_any_false w.procs pid

theorem exit_handler_terminal_transition_witness :
    stoppingDemoWorld.scriptProcess = some 0
    ∧ (step stoppingDemoWorld 50 (.close 0 0)).scriptProcess = none :=
  ⟨rfl, (exit_handler_terminal_transition stoppingDemoWorld 50 0 0 rfl).1⟩

/-- C3: a stop request at time t0 on a running process that ignores both
the cooperative stop line and SIGTERM: the two escalation timers are armed
for t0+10000 and t0+18000 (the ~10 s and ~10+8 s grace deadlines), and
once both have fired the process has received SIGTERM once and SIGKILL
exactly once, in that order. -/
theorem forceful_kill_escalation (w : World) (pid t0 : Nat) (p : Proc)
    (hs : w.scriptProcess = some pid) (hpr : w.procs = [p])
    (hpid : p.pid = pid) (hsig : p.signals = [])
    (htm : w.timers = []) (hnt : w.nextTid = 0) :
    (runTrace w [(t0, .req .stopReq), (t0 + 10000, .timerFire 0),
        (t0 + 18000, .timerFire 1)]).procs
      = [{ p with
             stdin := p.stdin ++ ["stop\n"]
             signals := [.sigterm, .sigkill] }]
    ∧ (runTrace w [(t0, .req .stopReq), (t0 + 10000, .timerFire 0),
        (t0 + 18000, .timerFire 1)]).timers
      = [⟨0, t0 + 10000, .term, false⟩, ⟨1, t0 + 18000, .kill, false⟩]
    ∧ ((runTrace w [(t0, .req .stopReq), (t0 + 10000, .timerFire 0),
        (t0 + 18000, .timerFire 1)]).procs.map
          (fun q => q.signals.count Signal.sigkill)) = [1] := by
  refine ⟨?_, ?_, ?_⟩ <;>
    simp [runTrace, step, handleRequest, stopServerProcess, handleTimerFire,
      fireTimerBody, deactivateTimer, writeStdin, sendSignal, updateProc,
      hs, hpr, hpid, hsig, htm, hnt]

theorem forceful_kill_escalation_witness :
    runningDemoWorld.scriptProcess = some 0
    ∧ ((runTrace runningDemoWorld [(20, .req .stopReq),
        (20 + 10000, .timerFire 0), (20 + 18000, .timerFire 1)]).procs.map
          (fun q => q.signals.count Signal.sigkill)) = [1] :=
  ⟨rfl, (forceful_kill_escalation runningDemoWorld 0 20 demoProc
    rfl rfl rfl rfl rfl rfl).2.2⟩

/-- C4: if the child exits within the cooperative-shutdown grace window
after a stop request, no SIGTERM or SIGKILL is ever delivered: the
process's signal list stays empty, both escalation timers are cancelled
the instant the exit is observed, and any timer firing after cancellation
is a no-op that leaves the world unchanged. -/
theorem escalation_cancelled_on_quick_exit (w : World) (pid t0 t1 : Nat)
    (p : Proc)
    (hs : w.scriptProcess = some pid) (hpr : w.procs = [p])
    (hpid : p.pid = pid) (hsig : p.signals = [])
    (htm : w.timers = []) (hnt : w.nextTid = 0)
    (hcb : w.onStopCallback = none) (hearly : t1 < t0 + 10000) :
    (runTrace w [(t0, .req .stopReq), (t1, .close pid 0)]).procs
      = [{ p with
             stdin := p.stdin ++ ["stop\n"]
             signals := []
             closed := true }]
    ∧ (runTrace w [(t0, .req .stopReq), (t1, .close pid 0)]).timers
      = [⟨0, t0 + 10000, .term, false⟩, ⟨1, t0 + 18000, .kill, false⟩]
    ∧ ∀ tid t2,
        step (runTrace w [(t0, .req .stopReq), (t1, .close pid 0)]) t2
            (.timerFire tid)
          = runTrace w [(t0, .req .stopReq), (t1, .close pid 0)] := by
  refine ⟨?_, ?_, ?_⟩
  · simp [runTrace, step, handleRequest, stopServerProcess, handleClose,
      markClosed, writeStdin, updateProc, cancelStopTimers,
      hs, hpr, hpid, hsig, htm, hnt, hcb]
  · simp [runTrace, step, handleRequest, stopServerProcess, handleClose,
      markClosed, writeStdin, updateProc, cancelStopTimers,
      hs, hpr, hpid, hsig, htm, hnt, hcb]
  · intro tid t2
    simp [runTrace, step, handleRequest, stopServerProcess, handleClose,
      handleTimerFire, markClosed, writeStdin, updateProc, cancelStopTimers,
      hs, hpr, hpid, hsig, htm, hnt, hcb]

theorem escalation_cancelled_on_quick_exit_witness :
    (2000 : Nat) < 100 + 10000
    ∧ (runTrace runningDemoWorld
        [(100, .req .stopReq), (2000, .close 0 0)]).procs
      = [{ demoProc with
             stdin := demoProc.stdin ++ ["stop\n"]
             signals := []
             closed := true }] :=
  ⟨by decide, (escalation_cancelled_on_quick_exit runningDemoWorld 0 100 2000
    demoProc rfl rfl rfl rfl rfl rfl rfl (by decide)).1⟩

/-- C5: restart while Idle (no active instance) is a no-op with no spawn;
restart while Running on instance X stores the restart callback capturing
X at request time and spawns nothing itself; once the first process's exit
is observed at t1 the deferred-start timer is scheduled for t1+1000 (the
fixed post-exit delay), and only its firing performs the single second
spawn, targeting exactly the captured instance X. -/
theorem restart_semantics (w : World) (pid t0 t1 : Nat) (p : Proc) (X : String)
    (hs : w.scriptProcess = some pid) (had : w.activeServerDir = some X)
    (hpr : w.procs = [p]) (hpid : p.pid = pid)
    (htm : w.timers = []) (hnt : w.nextTid = 0)
    (hcb : w.onStopCallback = none) (hsc : w.scripts.contains X = true) :
    (∀ w2 : World, w2.activeServerDir = none →
        step w2 t0 (.req .restartReq) = w2)
    ∧ (step w t0 (.req .restartReq)).onStopCallback = some (.restartCb X)
    ∧ (step w t0 (.req .restartReq)).procs.length = 1
    ∧ (runTrace w [(t0, .req .restartReq), (t1, .close pid 0)]).timers
        = [⟨0, t0 + 10000, .term, false⟩, ⟨1, t0 + 18000, .kill, false⟩,
           ⟨2, t1 + 1000, .restartStart X, true⟩]
    ∧ (runTrace w [(t0, .req .restartReq), (t1, .close pid 0)]).scriptProcess
        = none
    ∧ (runTrace w [(t0, .req .restartReq), (t1, .close pid 0)]).procs.length = 1
    ∧ (runTrace w [(t0, .req .restartReq), (t1, .close pid 0),
        (t1 + 1000, .timerFire 2)]).scriptProcess = some w.nextPid
    ∧ (runTrace w [(t0, .req .restartReq), (t1, .close pid 0),
        (t1 + 1000, .timerFire 2)]).activeServerDir = some X
    ∧ (runTrace w [(t0, .req .restartReq), (t1, .close pid 0),
        (t1 + 1000, .timerFire 2)]).procs
      = [{ p with
             stdin := p.stdin ++ ["stop\n"]
             closed := true },
         ⟨w.nextPid, X, [], [], false, w.failingSpawns.contains X⟩] := by
  have hmem : X ∈ w.scripts := by simpa using hsc
  refine ⟨?_, ?_, ?_, ?_, ?_, ?_, ?_, ?_, ?_⟩
  · intro w2 h2
    simp [step, handleRequest, h2]
  all_goals
    simp [runTrace, step, handleRequest, stopServerProcess, handleClose,
      handleTimerFire, fireTimerBody, startScriptProcess, invokeCallback,
      markClosed, writeStdin, updateProc, cancelStopTimers, deactivateTimer,
      hs, had, hpr, hpid, htm, hnt, hcb, hmem]

theorem restart_semantics_witness :
    runningDemoWorld.activeServerDir = some "A"
    ∧ (runTrace runningDemoWorld [(5, .req .restartReq), (60, .close 0 0),
        (60 + 1000, .timerFire 2)]).procs
      = [{ demoProc with
             stdin := demoProc.stdin ++ ["stop\n"]
             closed := true },
         ⟨runningDemoWorld.nextPid, "A", [], [], false, false⟩] :=
  ⟨rfl, (restart_semantics runningDemoWorld 0 5 60 demoProc "A"
    rfl rfl rfl rfl rfl rfl rfl (by decide)).2.2.2.2.2.2.2.2⟩

end Panel
